import Mathlib

/-!
Verification development for the TutoraBot repository (src/app.py).

The application is glue code around delegated libraries: PDF loading
(PyPDFLoader), embedding (OpenAIEmbeddings), the in-memory vector store
(DocArrayInMemorySearch) and the map-reduce retrieval chain (RetrievalQA)
are all external capabilities invoked from src/app.py. The specification
(spec.md, sections 3, 4 and 8) describes the contracts of those delegated
components; here they are modelled from the spec and the control flow that
does live in src/app.py (upload handling, the pre-existing-documents
fallback, the generation-tab button handler, file persistence) is embedded
directly from the source.
-/

namespace TutoraBot

/-- Modelled from the spec (section 3): a Segment is a unit of retrievable
text with a stable id, its text, a source locator (page number) and a
fixed-length embedding vector, populated once. Embeddings are modelled as
lists of integers. -/
structure Segment where
  id : Nat
  text : String
  sourceLocator : Nat
  embedding : List ℤ
deriving DecidableEq

/-- Modelled from the spec (section 3): a raw segment as produced by the
Document Loader, before the embedding step has run. -/
structure RawSegment where
  id : Nat
  text : String
  sourceLocator : Nat
deriving DecidableEq

/-- Modelled from the spec (section 3): the VectorIndex holds the ordered
sequence of embedded segments of one document. -/
structure VectorIndex where
  segments : List Segment
deriving DecidableEq

/-- Modelled from the spec (section 4.3): the ranking relation used by
search. `rankLE sim q a b` holds when segment `a` ranks at least as high
as segment `b` for query vector `q`: strictly greater similarity, or equal
similarity with `a` having the lower (or equal) id — ties broken by
original segment order, lower id winning. The similarity metric `sim` is a
parameter, cosine similarity being the recommended default. -/
def rankLE (sim : List ℤ → List ℤ → ℤ) (q : List ℤ) (a b : Segment) : Prop :=
  sim q b.embedding < sim q a.embedding ∨
    (sim q a.embedding = sim q b.embedding ∧ a.id ≤ b.id)

instance rankLE_dec (sim : List ℤ → List ℤ → ℤ) (q : List ℤ) : DecidableRel (rankLE sim q) :=
  fun a b =>
    inferInstanceAs (Decidable (sim q b.embedding < sim q a.embedding ∨
      (sim q a.embedding = sim q b.embedding ∧ a.id ≤ b.id)))

instance rankLE_total (sim : List ℤ → List ℤ → ℤ) (q : List ℤ) :
    IsTotal Segment (rankLE sim q) where
  total a b := by
    rcases lt_trichotomy (sim q a.embedding) (sim q b.embedding) with h | h | h
    · exact Or.inr (Or.inl h)
    · rcases Nat.le_total a.id b.id with hid | hid
      · exact Or.inl (Or.inr ⟨h, hid⟩)
      · exact Or.inr (Or.inr ⟨h.symm, hid⟩)
    · exact Or.inl (Or.inl h)

instance rankLE_trans (sim : List ℤ → List ℤ → ℤ) (q : List ℤ) :
    IsTrans Segment (rankLE sim q) where
  trans a b c hab hbc := by
    rcases hab with hab | ⟨haeq, haid⟩
    · rcases hbc with hbc | ⟨hbeq, _⟩
      · exact Or.inl (lt_trans hbc hab)
      · exact Or.inl (hbeq ▸ hab)
    · rcases hbc with hbc | ⟨hbeq, hbid⟩
      · exact Or.inl (haeq.symm ▸ hbc)
      · exact Or.inr ⟨haeq.trans hbeq, le_trans haid hbid⟩

/-- Modelled from the spec (section 4.3): `search(query_vector, k)` returns
the k nearest segments under the ranking relation; when the index holds
fewer than k segments it returns all of them. Realised as taking the first
k elements of the segment sequence sorted by descending similarity with
ties broken by lower id. -/
def VectorIndex.search (sim : List ℤ → List ℤ → ℤ) (idx : VectorIndex)
    (q : List ℤ) (k : Nat) : List Segment :=
  (List.insertionSort (rankLE sim q) idx.segments).take k

/-- Correctness statement for search: right length, sorted by rank,
similarity scores descending, no duplicates, all segments returned when k
is at least the index size, and every returned segment ranks at least as
high as every indexed segment left out. -/
def SearchCorrect (sim : List ℤ → List ℤ → ℤ) (q : List ℤ) (k : Nat)
    (idx : VectorIndex) : Prop :=
  (idx.search sim q k).length = min k idx.segments.length ∧
  List.Sorted (rankLE sim q) (idx.search sim q k) ∧
  List.Sorted (fun x y : ℤ => y ≤ x)
    ((idx.search sim q k).map (fun s => sim q s.embedding)) ∧
  (idx.search sim q k).Nodup ∧
  (idx.segments.length ≤ k → (idx.search sim q k).Perm idx.segments) ∧
  ∀ a ∈ idx.search sim q k, ∀ b ∈ idx.segments,
    b ∉ idx.search sim q k → rankLE sim q a b

/-- Dot-product similarity on integer vectors, a concrete executable
instance of the similarity metric parameter. -/
def dotSimilarity : List ℤ → List ℤ → ℤ
  | _, [] => 0
  | [], _ :: _ => 0
  | a :: as, b :: bs => a * b + dotSimilarity as bs

/-- Concrete three-segment index used to instantiate the search theorems. -/
def sampleIndex : VectorIndex :=
  ⟨[⟨0, "alpha", 0, [1, 0]⟩, ⟨1, "beta", 1, [0, 1]⟩, ⟨2, "gamma", 2, [1, 1]⟩]⟩

/-- C1: for every index built from a non-empty (duplicate-free) segment
sequence and every k at least 1, search returns the k nearest segments by
descending similarity with no duplicates, ties broken by original segment
order (lower id wins), and returns all indexed segments when k is at least
the index size. -/
theorem vectorIndex_search_topk (sim : List ℤ → List ℤ → ℤ) (q : List ℤ) (k : Nat)
    (idx : VectorIndex) (hk : 1 ≤ k) (hne : idx.segments ≠ [])
    (hnd : idx.segments.Nodup) : SearchCorrect sim q k idx := by
  have hperm := List.perm_insertionSort (rankLE sim q) idx.segments
  have hsort := List.sorted_insertionSort (rankLE sim q) idx.segments
  have hlen : (List.insertionSort (rankLE sim q) idx.segments).length =
      idx.segments.length := hperm.length_eq
  have hsortedTake : List.Pairwise (rankLE sim q)
      ((List.insertionSort (rankLE sim q) idx.segments).take k) :=
    List.Pairwise.sublist (List.take_sublist _ _) hsort
  refine ⟨?_, ?_, ?_, ?_, ?_, ?_⟩
  · simp [VectorIndex.search, List.length_take, hlen]
  · exact hsortedTake
  · exact hsortedTake.map _ (fun a b hab => by
      rcases hab with h | ⟨h, _⟩
      · exact le_of_lt h
      · exact h.ge)
  · exact (hperm.symm.nodup hnd).sublist (List.take_sublist _ _)
  · intro hkk
    have : (List.insertionSort (rankLE sim q) idx.segments).take k =
        List.insertionSort (rankLE sim q) idx.segments :=
      List.take_of_length_le (by rw [hlen]; exact hkk)
    simpa [VectorIndex.search, this] using hperm
  · intro a ha b hb hbn
    simp only [VectorIndex.search] at ha hbn
    have hbl : b ∈ List.insertionSort (rankLE sim q) idx.segments := hperm.mem_iff.mpr hb
    have hpw : List.Pairwise (rankLE sim q)
        ((List.insertionSort (rankLE sim q) idx.segments).take k ++
          (List.insertionSort (rankLE sim q) idx.segments).drop k) := by
      rw [List.take_append_drop]; exact hsort
    obtain ⟨-, -, hcross⟩ := List.pairwise_append.mp hpw
    have hbd : b ∈ (List.insertionSort (rankLE sim q) idx.segments).drop k := by
      have : b ∈ (List.insertionSort (rankLE sim q) idx.segments).take k ++
          (List.insertionSort (rankLE sim q) idx.segments).drop k := by
        rw [List.take_append_drop]; exact hbl
      rcases List.mem_append.mp this with h | h
      · exact absurd h hbn
      · exact h
    exact hcross a ha b hbd

/-- C1 witness: the search correctness statement instantiated at the
concrete sample index, query vector [1, 0] and k = 2. -/
theorem vectorIndex_search_topk_witness :
    (1 ≤ 2 ∧ sampleIndex.segments ≠ [] ∧ sampleIndex.segments.Nodup) ∧
      SearchCorrect dotSimilarity [1, 0] 2 sampleIndex :=
  ⟨⟨by decide, by decide, by decide⟩,
    vectorIndex_search_topk dotSimilarity [1, 0] 2 sampleIndex (by decide) (by decide)
      (by decide)⟩

/-- Sanity check kept as a lemma: the sample search returns the two
highest-similarity segments, the tie between ids 0 and 2 broken in favour
of the lower id. -/
theorem sampleIndex_search_eval : sampleIndex.search dotSimilarity [1, 0] 2 =
    [⟨0, "alpha", 0, [1, 0]⟩, ⟨2, "gamma", 2, [1, 1]⟩] := by decide

/-- C7: search is deterministic and idempotent — two calls with identical
query vectors and identical k against the same built index return
identical ordered output. -/
theorem vectorIndex_search_deterministic (sim : List ℤ → List ℤ → ℤ)
    (idx : VectorIndex) (q1 q2 : List ℤ) (k1 k2 : Nat)
    (hq : q1 = q2) (hk : k1 = k2) :
    idx.search sim q1 k1 = idx.search sim q2 k2 := by
  rw [hq, hk]

/-- C7 witness: two identical searches against the sample index coincide. -/
theorem vectorIndex_search_deterministic_witness :
    (([1, 0] : List ℤ) = [1, 0] ∧ 2 = 2) ∧
      sampleIndex.search dotSimilarity [1, 0] 2 = sampleIndex.search dotSimilarity [1, 0] 2 :=
  ⟨⟨rfl, rfl⟩,
    vectorIndex_search_deterministic dotSimilarity sampleIndex [1, 0] [1, 0] 2 2 rfl rfl⟩

/-- Modelled from the spec (section 4.5): the fixed deterministic answer the
synthesizer returns when retrieval yields zero segments. -/
def noContentAnswer : String := "no relevant content found"

/-- Modelled from the spec (sections 3 and 4.4): the Retriever embeds the
query text and searches the index, producing the RetrievalResult as an
ordered sequence of (segment, similarity score) pairs. -/
def retrieve (sim : List ℤ → List ℤ → ℤ) (embedQ : String → List ℤ)
    (idx : VectorIndex) (queryText : String) (k : Nat) : List (Segment × ℤ) :=
  (idx.search sim (embedQ queryText) k).map
    (fun s => (s, sim (embedQ queryText) s.embedding))

/-- Modelled from the spec (section 4.5): the Answer Synthesizer. The remote
chat-completion model is the oracle parameter; the second component of the
result is the list of payloads of the remote calls issued, so that the
empty list means no remote call happened. On an empty RetrievalResult the
fixed no-content answer is returned with no remote call. -/
def synthesize (oracle : String → List (Segment × ℤ) → String) (question : String)
    (result : List (Segment × ℤ)) : String × List (List (Segment × ℤ)) :=
  if result.isEmpty then (noContentAnswer, [])
  else (oracle question result, [result])

/-- C2: against an index holding zero segments, retrieval returns an empty
RetrievalResult and the synthesizer returns the fixed no-content answer
having issued zero remote chat-completion calls. -/
theorem empty_index_no_remote_call (sim : List ℤ → List ℤ → ℤ)
    (embedQ : String → List ℤ) (oracle : String → List (Segment × ℤ) → String)
    (queryText : String) (k : Nat) (idx : VectorIndex)
    (h : idx.segments = []) :
    retrieve sim embedQ idx queryText k = [] ∧
      synthesize oracle queryText (retrieve sim embedQ idx queryText k) =
        (noContentAnswer, []) := by
  have hr : retrieve sim embedQ idx queryText k = [] := by
    simp [retrieve, VectorIndex.search, h]
  exact ⟨hr, by simp [hr, synthesize]⟩

/-- C2 witness: the empty-index case instantiated at a concrete empty index,
query and k = 3. -/
theorem empty_index_no_remote_call_witness :
    (VectorIndex.mk []).segments = [] ∧
      (retrieve dotSimilarity (fun _ => [1]) (VectorIndex.mk []) "topic" 3 = [] ∧
        synthesize (fun _ _ => "remote") "topic"
            (retrieve dotSimilarity (fun _ => [1]) (VectorIndex.mk []) "topic" 3) =
          (noContentAnswer, [])) :=
  ⟨rfl, empty_index_no_remote_call dotSimilarity (fun _ => [1]) (fun _ _ => "remote")
    "topic" 3 (VectorIndex.mk []) rfl⟩

/-- Modelled from the spec (sections 4.2 and 4.3): the embedding step of the
build, applied to each raw segment in order. The embedder is fallible
(remote call); a failed segment embedding makes the whole pass fail. -/
def embedAll (embed : String → Option (List ℤ)) : List RawSegment → Option (List Segment)
  | [] => some []
  | s :: rest =>
    match embed s.text, embedAll embed rest with
    | some v, some tail =>
      some ({ id := s.id, text := s.text, sourceLocator := s.sourceLocator,
              embedding := v } :: tail)
    | _, _ => none

/-- Modelled from the spec (section 4.3): `build(segments)` consumes the
full ordered sequence of segments, embeds each one and constructs the
immutable index in one pass; if any embedding step fails, no index is
returned. -/
def VectorIndex.build (embed : String → Option (List ℤ))
    (raws : List RawSegment) : Option VectorIndex :=
  (embedAll embed raws).map VectorIndex.mk

theorem embedAll_eq_none (embed : String → Option (List ℤ)) (raws : List RawSegment)
    (hs : ∃ s ∈ raws, embed s.text = none) : embedAll embed raws = none := by
  induction raws with
  | nil => obtain ⟨s, hs, -⟩ := hs; exact absurd hs (List.not_mem_nil s)
  | cons a rest ih =>
    obtain ⟨s, hmem, hnone⟩ := hs
    rcases List.mem_cons.mp hmem with rfl | hmem
    · simp [embedAll, hnone]
    · rw [embedAll, ih ⟨s, hmem, hnone⟩]
      cases embed a.text <;> rfl

theorem embedAll_eq_some (embed : String → Option (List ℤ)) (raws : List RawSegment)
    (segs : List Segment) (h : embedAll embed raws = some segs) :
    segs.length = raws.length ∧ ∀ e ∈ segs, embed e.text = some e.embedding := by
  induction raws generalizing segs with
  | nil =>
    simp only [embedAll, Option.some.injEq] at h
    subst h
    exact ⟨rfl, by simp⟩
  | cons a rest ih =>
    rw [embedAll] at h
    cases ha : embed a.text with
    | none => rw [ha] at h; simp at h
    | some v =>
      rw [ha] at h
      cases hr : embedAll embed rest with
      | none => rw [hr] at h; simp at h
      | some tail =>
        rw [hr] at h
        simp only [Option.some.injEq] at h
        subst h
        obtain ⟨hlen, hall⟩ := ih tail hr
        refine ⟨by simp [hlen], ?_⟩
        intro e he
        rcases List.mem_cons.mp he with rfl | he
        · exact ha
        · exact hall e he

/-- C3: the build is atomic — if the embedding of any segment fails, no
index is returned (so no queries are served); when an index is returned,
it holds exactly one embedded segment per input segment and each indexed
segment carries exactly the one embedding the embedder produced for its
text, of the fixed dimensionality d. -/
theorem vectorIndex_build_atomic (embed : String → Option (List ℤ)) (d : Nat)
    (hd : ∀ t v, embed t = some v → v.length = d) (raws : List RawSegment) :
    ((∃ s ∈ raws, embed s.text = none) → VectorIndex.build embed raws = none) ∧
      ∀ idx, VectorIndex.build embed raws = some idx →
        idx.segments.length = raws.length ∧
          ∀ e ∈ idx.segments, embed e.text = some e.embedding ∧ e.embedding.length = d := by
  constructor
  · intro hs
    rw [VectorIndex.build, embedAll_eq_none embed raws hs]
    rfl
  · intro idx hidx
    rw [VectorIndex.build] at hidx
    cases hall : embedAll embed raws with
    | none => rw [hall] at hidx; simp at hidx
    | some segs =>
      rw [hall] at hidx
      simp only [Option.map_some', Option.some.injEq] at hidx
      obtain ⟨hlen, hemb⟩ := embedAll_eq_some embed raws segs hall
      subst hidx
      exact ⟨hlen, fun e he => ⟨hemb e he, hd e.text e.embedding (hemb e he)⟩⟩

/-- C3 witness: the atomic-build statement instantiated at a concrete
embedder of dimensionality 2 and a concrete two-segment input. -/
theorem vectorIndex_build_atomic_witness :
    (∀ t v, (fun s => if s = "" then none else some ([1, (s.length : ℤ)])) t = some v →
        v.length = 2) ∧
      (((∃ s ∈ [(⟨0, "page one", 0⟩ : RawSegment), ⟨1, "page two", 1⟩],
          (fun s => if s = "" then none else some ([1, (s.length : ℤ)])) s.text = none) →
        VectorIndex.build (fun s => if s = "" then none else some ([1, (s.length : ℤ)]))
          [⟨0, "page one", 0⟩, ⟨1, "page two", 1⟩] = none) ∧
      ∀ idx, VectorIndex.build (fun s => if s = "" then none else some ([1, (s.length : ℤ)]))
          [⟨0, "page one", 0⟩, ⟨1, "page two", 1⟩] = some idx →
        idx.segments.length = ([(⟨0, "page one", 0⟩ : RawSegment), ⟨1, "page two", 1⟩]).length ∧
          ∀ e ∈ idx.segments,
            (fun s => if s = "" then none else some ([1, (s.length : ℤ)])) e.text =
                some e.embedding ∧
              e.embedding.length = 2) :=
  ⟨fun t v hv => by
    by_cases ht : t = "" <;> simp [ht] at hv <;> simp [← hv],
    vectorIndex_build_atomic (fun s => if s = "" then none else some ([1, (s.length : ℤ)])) 2
      (fun t v hv => by by_cases ht : t = "" <;> simp [ht] at hv <;> simp [← hv])
      [⟨0, "page one", 0⟩, ⟨1, "page two", 1⟩]⟩

/-- Modelled from the spec (sections 4.1 and 7): the error taxonomy entry of
the Document Loader — a source that cannot be parsed as a valid PDF, or one
with zero extractable pages. -/
inductive LoadError
  | parseFailure
  | noPages
deriving DecidableEq

/-- Builds one raw segment per page text, ids and source locators numbered
consecutively from i in original page order. -/
def mkSegments (i : Nat) : List String → List RawSegment
  | [] => []
  | p :: ps => ⟨i, p, i⟩ :: mkSegments (i + 1) ps

/-- Modelled from the spec (section 4.1): the Document Loader (PyPDFLoader
is an external library, not part of src). A PDF source is modelled as its
parse result: `none` when the bytes cannot be parsed as a valid PDF, and
`some pages` with the ordered list of extractable page texts otherwise.
The loader fails with LoadError on an unparsable source or on zero
extractable pages; otherwise it produces one segment per page in original
page order. -/
def loadDocument : Option (List String) → Except LoadError (List RawSegment)
  | none => Except.error LoadError.parseFailure
  | some [] => Except.error LoadError.noPages
  | some (p :: ps) => Except.ok (mkSegments 0 (p :: ps))

theorem mkSegments_length (ps : List String) : ∀ i, (mkSegments i ps).length = ps.length := by
  induction ps with
  | nil => intro i; rfl
  | cons p ps ih => intro i; simp [mkSegments, ih]

theorem mkSegments_map_text (ps : List String) :
    ∀ i, (mkSegments i ps).map RawSegment.text = ps := by
  induction ps with
  | nil => intro i; rfl
  | cons p ps ih => intro i; simp [mkSegments, ih]

theorem mkSegments_map_locator (ps : List String) :
    ∀ i, (mkSegments i ps).map RawSegment.sourceLocator = List.range' i ps.length := by
  induction ps with
  | nil => intro i; rfl
  | cons p ps ih => intro i; simp [mkSegments, ih, List.range'_succ]

/-- C4: for every valid non-empty PDF with N pages, the loader produces
exactly N segments, one per page, in original page order — the j-th
segment carries the text of the j-th page and page number j. -/
theorem loader_one_segment_per_page (pages : List String) (hne : pages ≠ []) :
    ∃ segs, loadDocument (some pages) = Except.ok segs ∧
      segs.length = pages.length ∧
      segs.map RawSegment.text = pages ∧
      segs.map RawSegment.sourceLocator = List.range pages.length := by
  cases pages with
  | nil => exact absurd rfl hne
  | cons p ps =>
    refine ⟨mkSegments 0 (p :: ps), rfl, mkSegments_length (p :: ps) 0,
      mkSegments_map_text (p :: ps) 0, ?_⟩
    rw [mkSegments_map_locator (p :: ps) 0, List.range_eq_range']

/-- C4 witness: the loader statement instantiated at a concrete three-page
PDF. -/
theorem loader_one_segment_per_page_witness :
    (["first page", "second page", "third page"] : List String) ≠ [] ∧
      ∃ segs, loadDocument (some ["first page", "second page", "third page"]) =
          Except.ok segs ∧
        segs.length = (["first page", "second page", "third page"] : List String).length ∧
        segs.map RawSegment.text = ["first page", "second page", "third page"] ∧
        segs.map RawSegment.sourceLocator =
          List.range (["first page", "second page", "third page"] : List String).length :=
  ⟨by decide, loader_one_segment_per_page ["first page", "second page", "third page"]
    (by decide)⟩

/-- Lowercase-and-suffix test used by the fallback filter of
handle_document_upload, modelling the Python expression
file_path.lower().endswith applied to .pdf; realised over the character
list of the name so that it is kernel-executable. -/
def pdfName (s : String) : Bool :=
  List.isSuffixOf (".pdf").data (s.data.map Char.toLower)

/-- Model of a file of the pre-existing-documents directory as the analysis
flow sees it through the spec-modelled loader: its name, whether it is a
regular file, and the parse result of its bytes. -/
structure DiskPdf where
  name : String
  isFile : Bool
  source : Option (List String)
deriving DecidableEq

/-- The pre-existing-documents fallback loop of handle_document_upload
(src/app.py lines 70 to 75) run with the spec-modelled loader: every
regular file whose lowercased name ends in .pdf is loaded and the results
are concatenated in directory order; a loader failure propagates (app.py
installs no handler around loader.load). -/
def loadPreExisting : List DiskPdf → Except LoadError (List RawSegment)
  | [] => Except.ok []
  | e :: es =>
    if e.isFile && pdfName e.name then
      match loadDocument e.source with
      | Except.error err => Except.error err
      | Except.ok segs =>
        match loadPreExisting es with
        | Except.error err => Except.error err
        | Except.ok rest => Except.ok (segs ++ rest)
    else loadPreExisting es

/-- The document-analysis flow of src/app.py (lines 59 to 75 and 250 to
259) composed with the spec-modelled loader. The upload is `none` when no
file was uploaded, `some src` with the parse result of the uploaded bytes
otherwise. Loader failures propagate as exceptions would in app.py (no
handler exists), aborting the flow. On success the flow returns the loaded
documents together with the number of embedding operations performed by
the index build (one per document; zero when there is nothing to index). -/
def analysisFlow (upload : Option (Option (List String))) (preDir : List DiskPdf) :
    Except LoadError (List RawSegment × Nat) :=
  match (match upload with
         | some pdf => loadDocument pdf
         | none => Except.ok []) with
  | Except.error err => Except.error err
  | Except.ok docs =>
    match (if docs.isEmpty then loadPreExisting preDir else Except.ok docs) with
    | Except.error err => Except.error err
    | Except.ok finalDocs => Except.ok (finalDocs, finalDocs.length)

/-- C5: when the uploaded source cannot be parsed as a valid PDF or has
zero extractable pages, the loader fails with a LoadError and the flow
aborts before any embedding call — no segments are produced for that
document and no embedding count is ever reached. -/
theorem loader_failure_aborts_flow (pdf : Option (List String)) (preDir : List DiskPdf)
    (hbad : pdf = none ∨ pdf = some []) :
    ∃ err, loadDocument pdf = Except.error err ∧
      analysisFlow (some pdf) preDir = Except.error err := by
  rcases hbad with rfl | rfl
  · exact ⟨LoadError.parseFailure, rfl, rfl⟩
  · exact ⟨LoadError.noPages, rfl, rfl⟩

/-- C5 witness: the zero-page upload aborts the flow even though the
pre-existing directory holds a loadable PDF. -/
theorem loader_failure_aborts_flow_witness :
    ((some [] : Option (List String)) = none ∨ (some [] : Option (List String)) = some []) ∧
      ∃ err, loadDocument (some []) = Except.error err ∧
        analysisFlow (some (some []))
            [⟨"notes.pdf", true, some ["stored page"]⟩] = Except.error err :=
  ⟨Or.inr rfl, loader_failure_aborts_flow (some []) [⟨"notes.pdf", true, some ["stored page"]⟩]
    (Or.inr rfl)⟩

/-- Modelled from the spec (section 4.5): the map phase of map-reduce
synthesis. Each chunk of retrieved context is sent independently through
the remote synthesis oracle; the result is the list of intermediate
answers together with the trace of remote-call payloads, one call per
chunk, in order. -/
def mapPhase (oracle : String → List String → String) (question : String) :
    List (List String) → List String × List (List String)
  | [] => ([], [])
  | c :: cs =>
    let rest := mapPhase oracle question cs
    (oracle question c :: rest.1, c :: rest.2)

/-- Modelled from the spec (section 4.5): map-reduce synthesis. After the
map phase, the intermediate answers — not the raw segments — are fed back
through the same synthesis step once more as the final reduction call. The
second component is the full trace of remote-call payloads. -/
def mapReduceSynthesize (oracle : String → List String → String) (question : String)
    (chunks : List (List String)) : String × List (List String) :=
  let phase := mapPhase oracle question chunks
  (oracle question phase.1, phase.2 ++ [phase.1])

theorem mapPhase_eq (oracle : String → List String → String) (question : String)
    (chunks : List (List String)) :
    mapPhase oracle question chunks = (chunks.map (oracle question), chunks) := by
  induction chunks with
  | nil => rfl
  | cons c cs ih => simp [mapPhase, ih]

/-- C6: for context split into m chunks, the remote-call trace consists of
exactly the m chunk payloads in order followed by exactly one final
reduction call, the final call is fed the list of intermediate answers
rather than the raw segments, m + 1 calls happen in total, and the final
answer is the reduction of the intermediate answers. -/
theorem mapReduce_call_structure (oracle : String → List String → String)
    (question : String) (chunks : List (List String)) :
    (mapReduceSynthesize oracle question chunks).2 =
        chunks ++ [chunks.map (oracle question)] ∧
      (mapReduceSynthesize oracle question chunks).2.length = chunks.length + 1 ∧
      (mapReduceSynthesize oracle question chunks).1 =
        oracle question (chunks.map (oracle question)) := by
  refine ⟨?_, ?_, ?_⟩ <;> simp [mapReduceSynthesize, mapPhase_eq]

/-- Model of a file in the pre_existing_docs directory as the code sees it:
its name, whether it is a regular file, and the page documents that
PyPDFLoader.load returns for it. Used for the claims embedded directly
from src/app.py, where the loader result is plain data. -/
structure LoadedFile where
  name : String
  isFile : Bool
  docs : List RawSegment
deriving DecidableEq

/-- The filter of the fallback loop in handle_document_upload (src/app.py
lines 71 to 73): keep entries that are regular files whose lowercased path
ends in .pdf. -/
def pdfEntries (preDir : List LoadedFile) : List LoadedFile :=
  preDir.filter (fun e => e.isFile && pdfName e.name)

/-- handle_document_upload (src/app.py lines 59 to 75), loader results
supplied as data: when an upload is present its loaded documents replace
the document state; when the resulting document list is empty, the loop
extends it with the loads of every PDF file of the pre_existing_docs
directory, in directory order. -/
def handleDocumentUpload (upload : Option (List RawSegment))
    (preDir : List LoadedFile) : List RawSegment :=
  let docs := match upload with
    | some ds => ds
    | none => []
  if docs.isEmpty then docs ++ (pdfEntries preDir).flatMap LoadedFile.docs
  else docs

/-- Embedding step applied by the document-analysis tab when it builds the
vector store (src/app.py lines 253 to 254), with a total embedder. -/
def embedSegment (embedF : String → List ℤ) (s : RawSegment) : Segment :=
  ⟨s.id, s.text, s.sourceLocator, embedF s.text⟩

/-- The document-analysis tab flow of src/app.py (lines 250 to 259): run
handle_document_upload, then build the in-memory vector index over the
resulting documents when there are any, otherwise build nothing. -/
def analysisTabIndex (embedF : String → List ℤ) (upload : Option (List RawSegment))
    (preDir : List LoadedFile) : Option VectorIndex :=
  let docs := handleDocumentUpload upload preDir
  if docs.isEmpty then none
  else some ⟨docs.map (embedSegment embedF)⟩

/-- C8: when no document is uploaded, or the upload yields zero loaded
segments, the flow silently loads every PDF file of the pre_existing_docs
directory and, when that yields any documents, builds the index over
exactly those documents — queries are answered against documents the user
never supplied. -/
theorem fallback_loads_preexisting (embedF : String → List ℤ)
    (upload : Option (List RawSegment)) (preDir : List LoadedFile)
    (hup : upload = none ∨ upload = some [])
    (hpre : (pdfEntries preDir).flatMap LoadedFile.docs ≠ []) :
    handleDocumentUpload upload preDir = (pdfEntries preDir).flatMap LoadedFile.docs ∧
      analysisTabIndex embedF upload preDir =
        some ⟨((pdfEntries preDir).flatMap LoadedFile.docs).map (embedSegment embedF)⟩ := by
  have hdocs : handleDocumentUpload upload preDir =
      (pdfEntries preDir).flatMap LoadedFile.docs := by
    rcases hup with rfl | rfl <;> simp [handleDocumentUpload]
  refine ⟨hdocs, ?_⟩
  rw [analysisTabIndex]
  simp only [hdocs]
  rw [if_neg]
  simp [List.isEmpty_iff, hpre]

/-- C8 witness: with no upload and one stored PDF, the index is built over
the stored document. -/
theorem fallback_loads_preexisting_witness :
    ((none : Option (List RawSegment)) = none ∨ (none : Option (List RawSegment)) = some []) ∧
      (pdfEntries [⟨"cours.pdf", true, [⟨0, "stored text", 0⟩]⟩]).flatMap LoadedFile.docs ≠ [] ∧
      (handleDocumentUpload none [⟨"cours.pdf", true, [⟨0, "stored text", 0⟩]⟩] =
          (pdfEntries [⟨"cours.pdf", true, [⟨0, "stored text", 0⟩]⟩]).flatMap LoadedFile.docs ∧
        analysisTabIndex (fun _ => [1]) none [⟨"cours.pdf", true, [⟨0, "stored text", 0⟩]⟩] =
          some ⟨((pdfEntries [⟨"cours.pdf", true, [⟨0, "stored text", 0⟩]⟩]).flatMap
            LoadedFile.docs).map (embedSegment (fun _ => [1]))⟩) :=
  ⟨Or.inl rfl, by decide,
    fallback_loads_preexisting (fun _ => [1]) none
      [⟨"cours.pdf", true, [⟨0, "stored text", 0⟩]⟩] (Or.inl rfl) (by decide)⟩

/-- The content-source selector of the generation tab (src/app.py line
326): the selectbox offers exactly PDF and URL. -/
inductive ContentSource
  | pdfSource
  | urlSource
deriving DecidableEq

/-- Outcome of pressing the generate button (src/app.py lines 337 to 384):
either a document is generated from the bound prompt, or reading the
never-assigned prompt variable raises an unbound-name error, or the
user-facing missing-source error message is shown. -/
inductive GenOutcome
  | generated (userPrompt : String)
  | nameErrorRaised
  | missingSourceMessage
deriving DecidableEq

/-- Python truthiness of an optional string: None and the empty string are
falsy. -/
def pyTruthy : Option String → Bool
  | none => false
  | some s => s != ""

/-- The generate-button handler of the generation tab (src/app.py lines 337
to 384). The prompt variable is assigned only inside the PDF branch (when
the source is PDF and a PDF is selected) and the URL branch (when the
source is URL and URL text extraction returned truthy content); it is
modelled as an Option that stays `none` when no branch assigned it. The
guard `if user_prompt` then reads the variable: on a bound truthy value
the document is generated, on the empty string the user-facing error
message is shown, and on an unbound variable Python raises a NameError
before the message branch can be reached. -/
def generateHandler (source : ContentSource) (selectedPdf urlContent : Option String)
    (pdfPrompt urlPrompt : String) : GenOutcome :=
  let userPrompt : Option String :=
    if source == ContentSource.pdfSource && pyTruthy selectedPdf then some pdfPrompt
    else if source == ContentSource.urlSource && pyTruthy urlContent then some urlPrompt
    else none
  match userPrompt with
  | none => GenOutcome.nameErrorRaised
  | some p => if p != "" then GenOutcome.generated p else GenOutcome.missingSourceMessage

/-- C9: when neither the PDF branch nor the URL branch assigned the prompt
variable — for instance when URL extraction returned None — the guard
raises the unbound-name error and the user-facing error message branch is
never reached. -/
theorem generate_guard_unbound_name (source : ContentSource)
    (selectedPdf urlContent : Option String) (pdfPrompt urlPrompt : String)
    (h1 : ¬(source = ContentSource.pdfSource ∧ pyTruthy selectedPdf = true))
    (h2 : ¬(source = ContentSource.urlSource ∧ pyTruthy urlContent = true)) :
    generateHandler source selectedPdf urlContent pdfPrompt urlPrompt =
        GenOutcome.nameErrorRaised ∧
      generateHandler source selectedPdf urlContent pdfPrompt urlPrompt ≠
        GenOutcome.missingSourceMessage := by
  have hb1 : (source == ContentSource.pdfSource && pyTruthy selectedPdf) = false := by
    rw [Bool.and_eq_false_iff]
    by_cases hs : source = ContentSource.pdfSource
    · exact Or.inr (by simpa [hs] using fun ht => h1 ⟨hs, ht⟩)
    · exact Or.inl (by simpa using hs)
  have hb2 : (source == ContentSource.urlSource && pyTruthy urlContent) = false := by
    rw [Bool.and_eq_false_iff]
    by_cases hs : source = ContentSource.urlSource
    · exact Or.inr (by simpa [hs] using fun ht => h2 ⟨hs, ht⟩)
    · exact Or.inl (by simpa using hs)
  rw [generateHandler]
  simp only [hb1, hb2]
  exact ⟨rfl, by simp⟩

/-- C9 witness: source URL with failed extraction (None) and no selected
PDF raises the unbound-name error instead of showing the message. -/
theorem generate_guard_unbound_name_witness :
    (¬(ContentSource.urlSource = ContentSource.pdfSource ∧ pyTruthy none = true) ∧
        ¬(ContentSource.urlSource = ContentSource.urlSource ∧ pyTruthy none = true)) ∧
      (generateHandler ContentSource.urlSource none none "p" "u" =
          GenOutcome.nameErrorRaised ∧
        generateHandler ContentSource.urlSource none none "p" "u" ≠
          GenOutcome.missingSourceMessage) :=
  ⟨⟨by decide, by decide⟩,
    generate_guard_unbound_name ContentSource.urlSource none none "p" "u"
      (by decide) (by decide)⟩

/-- The upload handler of the generation tab (src/app.py lines 310 to 319):
the uploaded file is written into the shared on-disk pre_existing_docs
directory (open with mode wb creates the file or overwrites an existing
file of the same name). The directory is modelled as the persistent list
of its files. -/
def saveUploadedFile (preDir : List LoadedFile) (name : String)
    (docs : List RawSegment) : List LoadedFile :=
  (preDir.filter (fun e => e.name != name)) ++ [⟨name, true, docs⟩]

/-- C10: uploading a PDF in the generation flow persists it into the shared
pre_existing_docs directory — the file is present on disk afterwards, and
the document-analysis flow run later with no upload (any later session)
includes every one of its documents in the loaded document set. -/
theorem upload_persists_to_preexisting (preDir : List LoadedFile) (name : String)
    (docs : List RawSegment) (hpdf : pdfName name = true) :
    (⟨name, true, docs⟩ : LoadedFile) ∈ saveUploadedFile preDir name docs ∧
      ∀ d ∈ docs, d ∈ handleDocumentUpload none (saveUploadedFile preDir name docs) := by
  constructor
  · exact List.mem_append.mpr (Or.inr (List.mem_singleton.mpr rfl))
  · intro d hd
    have hmem : (⟨name, true, docs⟩ : LoadedFile) ∈
        pdfEntries (saveUploadedFile preDir name docs) := by
      rw [pdfEntries, List.mem_filter]
      exact ⟨List.mem_append.mpr (Or.inr (List.mem_singleton.mpr rfl)),
        by simp [hpdf]⟩
    rw [handleDocumentUpload]
    simp only [List.isEmpty_nil, if_pos]
    exact List.mem_append.mpr (Or.inr (List.mem_flatMap.mpr ⟨⟨name, true, docs⟩, hmem, hd⟩))

/-- C10 witness: a concrete uploaded PDF is persisted and its document is
loaded by a later analysis run with no upload. -/
theorem upload_persists_to_preexisting_witness :
    pdfName ("devoir.pdf") = true ∧
      ((⟨"devoir.pdf", true, [⟨0, "exercise text", 0⟩]⟩ : LoadedFile) ∈
          saveUploadedFile [] "devoir.pdf" [⟨0, "exercise text", 0⟩] ∧
        ∀ d ∈ ([⟨0, "exercise text", 0⟩] : List RawSegment),
          d ∈ handleDocumentUpload none
            (saveUploadedFile [] "devoir.pdf" [⟨0, "exercise text", 0⟩])) :=
  ⟨by decide,
    upload_persists_to_preexisting [] "devoir.pdf" [⟨0, "exercise text", 0⟩] (by decide)⟩

end TutoraBot
